import Mathlib

/-!
Verification of the cubecoachAI solve-timing and telemetry pipeline.

Shallow embedding of the JavaScript sources:
  timer.js              (Timer: formatTime, parseTime)
  solve-parser          (SolveParser: startSolve, addMove, stopSolve, analyzePhases,
                         detectCrossEnd, detectF2LEnd, detectOLLEnd, detectOLLAlgorithm)
  app.js                (CubeCoachApp.updateSolveState lifecycle state machine)
  gan-bluetooth.js      (GANBluetooth.handleDataReceived, couldBeMove, parseDataBuffer,
                         parseRawMoveData)
  gocube-bluetooth.js   (GoCubeBluetooth.handleDataReceived throttle,
                         detectMoveFromAcceleration, analyzeMovePattern)

Modelling conventions:
  - JavaScript numbers are modelled as Int (timestamps, indices) or Rat
    (fractional arithmetic).  On the integer inputs the claims quantify over,
    IEEE double arithmetic in the source computes the same values as exact
    rational arithmetic; where a floating-point rounding question arises it is
    discussed in a comment at the definition.
  - The JavaScript value undefined / NaN is modelled by the none case of
    Option; JS comparison and arithmetic operators are embedded as total
    functions on Option that propagate none exactly as JS propagates NaN.
  - JS strings are modelled as List Char.  The apostrophe character used in
    cube move names (as in R followed by a prime) is written primeChar below.
  - Mutable object fields become fields of explicit state structures; a
    method that mutates state and emits events becomes a function from the
    state (plus inputs) to the new state and the list of emitted events.
-/

/-! ## JavaScript string and number primitives -/

/-- A JS number that may be NaN (or arise from an undefined operand):
none models NaN / undefined, some q a finite value (exact-rational model
of the IEEE double). -/
def JSNum : Type := Option Rat

instance : DecidableEq JSNum := by unfold JSNum; infer_instance

/-- JS less-than: any comparison involving NaN or undefined is false. -/
def jsLt : JSNum → JSNum → Bool
  | some a, some b => a < b
  | _, _ => false

/-- JS division (divisor nonzero in all uses); NaN propagates. -/
def jsDiv : JSNum → JSNum → JSNum
  | some a, some b => some (a / b)
  | _, _ => none

/-- JS truncation toward zero (the rounding used by the JS % operator). -/
def jsTrunc (q : Rat) : Int := if 0 ≤ q then ⌊q⌋ else -⌊-q⌋

/-- JS remainder operator a % b = a - b * trunc (a / b); NaN propagates. -/
def jsMod : JSNum → JSNum → JSNum
  | some a, some b => some (a - b * jsTrunc (a / b))
  | _, _ => none

/-- Math.floor; NaN propagates (Math.floor NaN = NaN). -/
def jsFloor : JSNum → JSNum
  | some a => some (⌊a⌋ : Rat)
  | none => none

/-- The decimal digit with value n (for n < 10). -/
def digitChar (n : Nat) : Char := Char.ofNat (48 + n)

/-- Decimal representation of a natural number, as Number.prototype.toString
renders an integer-valued double.  Fuel-based structural recursion; fuel n+1
always suffices since the value shrinks by a factor 10 each step. -/
def decReprAux : Nat → Nat → List Char
  | 0, _ => []
  | fuel + 1, n => if n < 10 then [digitChar n] else decReprAux fuel (n / 10) ++ [digitChar (n % 10)]

def decRepr (n : Nat) : List Char := decReprAux (n + 1) n

/-- Number.prototype.toString.  In the source it is applied only to results of
Math.floor on nonnegative finite values, or to NaN (which prints NaN). -/
def jsNumToString : JSNum → List Char
  | none => ("NaN").data
  | some q => decRepr (⌊q⌋).toNat

/-- String.prototype.padStart with a pad character. -/
def padStart (l : List Char) (n : Nat) (c : Char) : List Char :=
  List.replicate (n - l.length) c ++ l

/-- Is c a decimal digit (the JS regex class backslash-d). -/
def isDigitC (c : Char) : Bool := 48 ≤ c.toNat && c.toNat ≤ 57

/-- Numeric value of a digit character. -/
def digitVal (c : Char) : Nat := c.toNat - 48

/-! ## Timer.formatTime and Timer.parseTime (timer.js lines 216-249)

formatTime(milliseconds):
    if (milliseconds < 0) return "00:00.000";
    totalSeconds = milliseconds / 1000;
    minutes = Math.floor(totalSeconds / 60);
    seconds = Math.floor(totalSeconds % 60);
    ms      = Math.floor(milliseconds % 1000);
    return pad2(minutes) + ":" + pad2(seconds) + "." + pad3(ms);

An input of undefined fails the guard (undefined < 0 is false), then every
arithmetic step yields NaN and every toString yields the string NaN; the
embedding obtains this compositionally from the JSNum operations. -/

namespace Timer

def formatTime (milliseconds : JSNum) : List Char :=
  if jsLt milliseconds (some 0) then ("00:00.000").data
  else
    let totalSeconds := jsDiv milliseconds (some 1000)
    let minutes := jsFloor (jsDiv totalSeconds (some 60))
    let seconds := jsFloor (jsMod totalSeconds (some 60))
    let ms := jsFloor (jsMod milliseconds (some 1000))
    padStart (jsNumToString minutes) 2 '0' ++ [':'] ++
    padStart (jsNumToString seconds) 2 '0' ++ ['.'] ++
    padStart (jsNumToString ms) 3 '0'

/-- parseTime(timeString): match against the regex for two digits, a colon,
two digits, a dot, three digits; on failure return 0; on success
(minutes * 60 + seconds) * 1000 + milliseconds. -/
def parseTime (s : List Char) : Nat :=
  match s with
  | [a, b, k, c, d, p, e, f, g] =>
    if (k == ':') && (p == '.') && isDigitC a && isDigitC b && isDigitC c &&
        isDigitC d && isDigitC e && isDigitC f && isDigitC g then
      ((digitVal a * 10 + digitVal b) * 60 + (digitVal c * 10 + digitVal d)) * 1000 +
        (digitVal e * 100 + digitVal f * 10 + digitVal g)
    else 0
  | _ => 0

end Timer

/-! ### Digit rendering lemmas -/

lemma decRepr_lt10 {n : Nat} (h : n < 10) : decRepr n = [digitChar n] := by
  unfold decRepr
  simp [decReprAux, h]

lemma decRepr_lt100 {n : Nat} (h10 : 10 ≤ n) (h : n < 100) :
    decRepr n = [digitChar (n / 10), digitChar (n % 10)] := by
  obtain ⟨k, rfl⟩ : ∃ k, n = k + 1 := ⟨n - 1, by omega⟩
  have h1 : ¬ (k + 1 < 10) := by omega
  have h2 : (k + 1) / 10 < 10 := by omega
  unfold decRepr
  simp [decReprAux, h1, h2]

lemma decRepr_lt1000 {n : Nat} (h100 : 100 ≤ n) (h : n < 1000) :
    decRepr n = [digitChar (n / 100), digitChar (n / 10 % 10), digitChar (n % 10)] := by
  obtain ⟨k, rfl⟩ : ∃ k, n = k + 2 := ⟨n - 2, by omega⟩
  have h1 : ¬ (k + 2 < 10) := by omega
  have h2 : ¬ ((k + 2) / 10 < 10) := by omega
  have h3 : (k + 2) / 10 / 10 < 10 := by omega
  have h4 : (k + 2) / 10 / 10 = (k + 2) / 100 := by omega
  have h5 : (k + 2) / 100 < 10 := by omega
  unfold decRepr
  simp [decReprAux, h1, h2, h3, h4, h5]

lemma digitChar_zero : digitChar 0 = '0' := by decide

lemma pad2_decRepr {n : Nat} (h : n < 100) :
    padStart (decRepr n) 2 '0' = [digitChar (n / 10), digitChar (n % 10)] := by
  by_cases h10 : n < 10
  · rw [decRepr_lt10 h10]
    have e1 : n / 10 = 0 := by omega
    have e2 : n % 10 = n := by omega
    rw [e1, e2, digitChar_zero]
    rfl
  · rw [decRepr_lt100 (by omega) h]
    rfl

lemma pad3_decRepr {n : Nat} (h : n < 1000) :
    padStart (decRepr n) 3 '0' =
      [digitChar (n / 100), digitChar (n / 10 % 10), digitChar (n % 10)] := by
  by_cases h10 : n < 10
  · rw [decRepr_lt10 h10]
    have e1 : n / 100 = 0 := by omega
    have e2 : n / 10 % 10 = 0 := by omega
    have e3 : n % 10 = n := by omega
    rw [e1, e2, e3, digitChar_zero]
    rfl
  · by_cases h100 : n < 100
    · rw [decRepr_lt100 (by omega) h100]
      have e1 : n / 100 = 0 := by omega
      have e2 : n / 10 % 10 = n / 10 := by omega
      rw [e1, e2, digitChar_zero]
      rfl
    · rw [decRepr_lt1000 (by omega) h]
      rfl

lemma isDigitC_digitChar {d : Nat} (h : d < 10) : isDigitC (digitChar d) = true := by
  interval_cases d <;> decide

lemma digitVal_digitChar {d : Nat} (h : d < 10) : digitVal (digitChar d) = d := by
  interval_cases d <;> decide

lemma parseTime_digits (a1 a0 b1 b0 e2 e1 e0 : Nat)
    (ha1 : a1 < 10) (ha0 : a0 < 10) (hb1 : b1 < 10) (hb0 : b0 < 10)
    (he2 : e2 < 10) (he1 : e1 < 10) (he0 : e0 < 10) :
    Timer.parseTime [digitChar a1, digitChar a0, ':', digitChar b1, digitChar b0, '.',
      digitChar e2, digitChar e1, digitChar e0] =
      ((a1 * 10 + a0) * 60 + (b1 * 10 + b0)) * 1000 + (e2 * 100 + e1 * 10 + e0) := by
  simp [Timer.parseTime, isDigitC_digitChar, digitVal_digitChar,
    ha1, ha0, hb1, hb0, he2, he1, he0]

/-! ### formatTime on a nonnegative integer input -/

lemma floor_intCast_div_q (a : Int) (d : Nat) :
    ⌊(a : Rat) / (d : Nat)⌋ = a / (d : Int) := by
  exact_mod_cast Rat.floor_intCast_div_natCast a d

lemma formatTime_int_nonneg (x : Int) (hx : 0 ≤ x) :
    Timer.formatTime (some (x : Rat)) =
      padStart (decRepr (x / 60000).toNat) 2 '0' ++ [':'] ++
      padStart (decRepr (x % 60000 / 1000).toNat) 2 '0' ++ ['.'] ++
      padStart (decRepr (x % 1000).toNat) 3 '0' := by
  have hlt : jsLt (some (x : Rat)) (some 0) = false := by
    simp only [jsLt, decide_eq_false_iff_not, not_lt]
    exact_mod_cast hx
  have hq : (0 : Rat) ≤ (x : Rat) := by exact_mod_cast hx
  have hmin : ⌊(x : Rat) / 1000 / 60⌋ = x / 60000 := by
    rw [div_div]
    norm_num
    have := floor_intCast_div_q x 60000
    push_cast at this
    exact this
  have hms1000 : ⌊(x : Rat) / 1000⌋ = x / 1000 := by
    have := floor_intCast_div_q x 1000
    push_cast at this
    exact this
  have htr : jsTrunc ((x : Rat) / 1000 / 60) = x / 60000 := by
    rw [jsTrunc, if_pos (by positivity)]
    exact hmin
  have htr2 : jsTrunc ((x : Rat) / 1000) = x / 1000 := by
    rw [jsTrunc, if_pos (by positivity)]
    exact hms1000
  have hsec : ⌊(x : Rat) / 1000 - 60 * ((x / 60000 : Int) : Rat)⌋ = x % 60000 / 1000 := by
    have he : (x : Rat) / 1000 - 60 * ((x / 60000 : Int) : Rat) =
        ((x : Rat) - 60000 * ((x / 60000 : Int) : Rat)) / 1000 := by
      ring
    have hfl := floor_intCast_div_q (x - 60000 * (x / 60000)) 1000
    push_cast at hfl
    rw [he, hfl]
    congr 1
    omega
  have hmsv : (x : Rat) - 1000 * ((x / 1000 : Int) : Rat) = ((x % 1000 : Int) : Rat) := by
    have : x % 1000 = x - 1000 * (x / 1000) := by omega
    rw [this]
    push_cast
    ring
  rw [Timer.formatTime, hlt]
  simp only [Bool.false_eq_true, if_false, jsDiv, jsMod, jsFloor, htr, htr2, jsNumToString]
  rw [hmin, hsec, hmsv]
  rw [Int.floor_intCast]
  congr 2

/-- Claim C7: for every integer millisecond value x in [0, 3599999],
parseTime (formatTime x) = x (formatting then parsing is the identity on
that range). -/
theorem c7_parseTime_formatTime_roundtrip (x : Int) (h0 : 0 ≤ x) (h1 : x ≤ 3599999) :
    (Timer.parseTime (Timer.formatTime (some (x : Rat))) : Int) = x := by
  rw [formatTime_int_nonneg x h0]
  have hm : (x / 60000).toNat < 100 := by omega
  have hs : (x % 60000 / 1000).toNat < 100 := by omega
  have hr : (x % 1000).toNat < 1000 := by omega
  rw [pad2_decRepr hm, pad2_decRepr hs, pad3_decRepr hr]
  have hlist :
      ([digitChar ((x / 60000).toNat / 10), digitChar ((x / 60000).toNat % 10)] ++ [':'] ++
        [digitChar ((x % 60000 / 1000).toNat / 10), digitChar ((x % 60000 / 1000).toNat % 10)] ++
        ['.'] ++
        [digitChar ((x % 1000).toNat / 100), digitChar ((x % 1000).toNat / 10 % 10),
          digitChar ((x % 1000).toNat % 10)]) =
      [digitChar ((x / 60000).toNat / 10), digitChar ((x / 60000).toNat % 10), ':',
        digitChar ((x % 60000 / 1000).toNat / 10), digitChar ((x % 60000 / 1000).toNat % 10), '.',
        digitChar ((x % 1000).toNat / 100), digitChar ((x % 1000).toNat / 10 % 10),
        digitChar ((x % 1000).toNat % 10)] := by
    simp
  rw [hlist]
  rw [parseTime_digits _ _ _ _ _ _ _ (by omega) (by omega) (by omega) (by omega) (by omega)
    (by omega) (by omega)]
  omega

/-- Witness for C7 at x = 83456. -/
theorem c7_witness :
    (Timer.parseTime (Timer.formatTime (some ((83456 : Int) : Rat))) : Int) = 83456 :=
  c7_parseTime_formatTime_roundtrip 83456 (by norm_num) (by norm_num)

/-- Claim C8 (amended): formatTime renders nonnegative integer milliseconds as a
zero-padded MM:SS.mmm string, with 0 and 83456 as stated, and every negative
input renders as 00:00.000; an undefined input, however, renders as the string
NaN:NaN.NaN, because the guard (milliseconds < 0) is false for undefined and
the NaN value then propagates through the arithmetic and toString calls. -/
theorem c8_formatTime_edge_amended :
    Timer.formatTime (some ((0 : Int) : Rat)) = ("00:00.000").data ∧
    Timer.formatTime (some ((83456 : Int) : Rat)) = ("01:23.456").data ∧
    (∀ x : Rat, x < 0 → Timer.formatTime (some x) = ("00:00.000").data) ∧
    Timer.formatTime none = ("NaN:NaN.NaN").data := by
  refine ⟨?_, ?_, ?_, by decide⟩
  · rw [formatTime_int_nonneg 0 (by norm_num)]
    decide
  · rw [formatTime_int_nonneg 83456 (by norm_num)]
    decide
  · intro x hx
    rw [Timer.formatTime, if_pos]
    simp [jsLt, hx]

/-- Witness for the negative-input conjunct of C8, at x = -5. -/
theorem c8_witness : Timer.formatTime (some (-5 : Rat)) = ("00:00.000").data :=
  c8_formatTime_edge_amended.2.2.1 (-5) (by norm_num)

/-- Counterexample to C8 as stated: on an undefined input the source does not
return 00:00.000 but the string NaN:NaN.NaN. -/
theorem c8_counterexample :
    Timer.formatTime none = ("NaN:NaN.NaN").data ∧
    Timer.formatTime none ≠ ("00:00.000").data := by
  constructor <;> decide

/-! ## SolveParser (solve-parser source file)

Moves are recorded as objects with a cube-move label (JS string, here List
Char), an absolute timestamp, an optional duration and a relative time.  The
apostrophe that marks counterclockwise turns is the character with code 39. -/

def primeChar : Char := Char.ofNat 39

/-- A recorded move inside a Solve (the object built by SolveParser.addMove;
the JS field named notation is called notn here). -/
structure MoveRec where
  notn : List Char
  timestamp : Int
  duration : Option Int
  relativeTime : Int
deriving DecidableEq

instance : Inhabited MoveRec := ⟨⟨[], 0, none, 0⟩⟩

/-- The moveData event payload consumed by SolveParser.addMove. -/
structure MoveData where
  move : List Char
  timestamp : Int
  duration : Option Int
deriving DecidableEq

/-- Array.prototype.slice index resolution: a negative index counts from the
end (clamped below at 0), a nonnegative one is clamped above at the length. -/
def jsSliceClampIdx (n : Nat) (i : Int) : Nat :=
  if i < 0 then ((n : Int) + i).toNat else min i.toNat n

/-- Array.prototype.slice with two arguments. -/
def jsSlice (l : List α) (a b : Int) : List α :=
  (l.take (jsSliceClampIdx l.length b)).drop (jsSliceClampIdx l.length a)

/-- Array.prototype.slice with one argument. -/
def jsSliceFrom (l : List α) (a : Int) : List α := jsSlice l a (l.length : Int)

/-- Array.prototype.join with a single-space separator. -/
def joinSpace : List (List Char) → List Char
  | [] => []
  | [s] => s
  | s :: rest => s ++ ' ' :: joinSpace rest

/-- String.prototype.startsWith applied to the one-character string U. -/
def startsWithU : List Char → Bool
  | c :: _ => c == 'U'
  | [] => false

/-- String.prototype.includes: is pat a contiguous substring of s. -/
def containsSub : List Char → List Char → Bool
  | [], pat => pat.isEmpty
  | s@(_ :: t), pat => pat.isPrefixOf s || containsSub t pat

/-- JS whitespace (the regex class backslash-s restricted to the characters
that can occur in this pipeline). -/
def isWs (c : Char) : Bool := c == ' ' || c == '\t' || c == '\n' || c == '\r'

/-- replace(/whitespace-run/g, single space): each maximal whitespace run
becomes one space. -/
def collapseWsAux : Bool → List Char → List Char
  | _, [] => []
  | prevWs, c :: t =>
    if isWs c then
      if prevWs then collapseWsAux true t else ' ' :: collapseWsAux true t
    else c :: collapseWsAux false t

def collapseWs (l : List Char) : List Char := collapseWsAux false l

/-- String.prototype.trim. -/
def trimWs (l : List Char) : List Char :=
  ((l.dropWhile isWs).reverse.dropWhile isWs).reverse

/-- String.prototype.toLowerCase on the ASCII range used here. -/
def lowerChar (c : Char) : Char :=
  if 65 ≤ c.toNat && c.toNat ≤ 90 then Char.ofNat (c.toNat + 32) else c

namespace SolveParser

/-- SolveParser.normalizeMoveSequence: collapse whitespace, trim, lowercase. -/
def normalizeMoveSequence (s : List Char) : List Char :=
  (trimWs (collapseWs s)).map lowerChar

/-- SolveParser.sequenceContainsPattern: normalized substring containment. -/
def sequenceContainsPattern (sequence pat : List Char) : Bool :=
  containsSub (normalizeMoveSequence sequence) (normalizeMoveSequence pat)

/-! Cube move tokens used by the fixed algorithm tables. -/

def tU : List Char := ['U']
def tUp : List Char := ['U', primeChar]
def tU2 : List Char := ['U', '2']
def tD : List Char := ['D']
def tDp : List Char := ['D', primeChar]
def tR : List Char := ['R']
def tRp : List Char := ['R', primeChar]
def tR2 : List Char := ['R', '2']
def tL : List Char := ['L']
def tF : List Char := ['F']
def tFp : List Char := ['F', primeChar]
def tB2 : List Char := ['B', '2']
def tM2 : List Char := ['M', '2']
def tMp : List Char := ['M', primeChar]
def ty : List Char := ['y']

/-- SolveParser.initializeOLLPatterns: the fixed OLL table, in insertion order
(Object.entries iterates string keys in insertion order).  Note that the
OLL 21 and OLL 27 entries carry the identical canonical sequence. -/
def ollPatterns : List (String × List (List Char)) :=
  [("OLL 21", [joinSpace [tR, tU, tRp, tU, tR, tU2, tRp]]),
   ("OLL 22", [joinSpace [tR, tU2, tR2, tUp, tR2, tUp, tR2, tU2, tR]]),
   ("OLL 23", [joinSpace [tR2, tD, tRp, tU2, tR, tDp, tRp, tU2, tRp]]),
   ("OLL 24", [joinSpace [tR, tU, tRp, tUp, tRp, tF, tR, tFp]]),
   ("OLL 25", [joinSpace [tFp, tR, tU, tRp, tUp, tRp, tF, tR]]),
   ("OLL 26", [joinSpace [tR, tU2, tRp, tUp, tR, tUp, tRp]]),
   ("OLL 27", [joinSpace [tR, tU, tRp, tU, tR, tU2, tRp]])]

/-- SolveParser.initializePLLPatterns: the fixed PLL table, insertion order. -/
def pllPatterns : List (String × List (List Char)) :=
  [("T Perm", [joinSpace [tR, tU, tRp, tFp, tR, tU, tRp, tUp, tRp, tF, tR2, tUp, tRp]]),
   ("A Perm", [joinSpace [tRp, tF, tRp, tB2, tR, tFp, tRp, tB2, tR2]]),
   ("U Perm", [joinSpace [tR, tUp, tR, tFp, tR2, tUp, tR, tUp, tR, tU, tRp, tF, tR, tU, tRp, tF]]),
   ("H Perm", [joinSpace [tM2, tU, tM2, tU2, tM2, tU, tM2]]),
   ("Z Perm", [joinSpace [tMp, tU, tM2, tU, tM2, tU, tMp, tU2, tM2]]),
   ("Y Perm", [joinSpace [tR, tUp, tRp, tF, tR, tFp, tR, tU, tRp, tFp, tR, tU, tRp, tUp, tF]]),
   ("V Perm", [joinSpace [tRp, tU, tRp, tUp, ty, tRp, tFp, tR2, tUp, tRp, tU, tRp, tF, tR, tF]]),
   ("N Perm", [joinSpace [tR, tU, tRp, tFp, tR, tU, tRp, tUp, tRp, tF, tR2, tUp, tRp, tU2, tR, tUp, tRp]])]

/-- SolveParser.detectOLLAlgorithm on the joined move labels of the OLL
segment: the first table entry (iteration order) one of whose patterns is a
normalized substring of the sequence wins; otherwise Unknown OLL. -/
def detectOLLAlgorithm (moves : List MoveRec) : String :=
  let moveSequence := joinSpace (moves.map MoveRec.notn)
  match ollPatterns.find? (fun entry =>
      entry.2.any (fun pat => sequenceContainsPattern moveSequence pat)) with
  | some entry => entry.1
  | none => "Unknown OLL"

/-- SolveParser.detectPLLAlgorithm, same shape over the PLL table. -/
def detectPLLAlgorithm (moves : List MoveRec) : String :=
  let moveSequence := joinSpace (moves.map MoveRec.notn)
  match pllPatterns.find? (fun entry =>
      entry.2.any (fun pat => sequenceContainsPattern moveSequence pat)) with
  | some entry => entry.1
  | none => "Unknown PLL"

/-- SolveParser.detectCrossEnd: scan the first min(length, 12) moves; at the
first label starting with U return max 0 (i - 1); otherwise return
min 7 (length - 1). -/
def detectCrossEnd (moves : List MoveRec) : Int :=
  match (moves.take 12).enum.find? (fun p => startsWithU p.2.notn) with
  | some p => max 0 ((p.1 : Int) - 1)
  | none => min 7 ((moves.length : Int) - 1)

/-- Loop body of SolveParser.detectF2LEnd: walk the moves from index i keeping
the current count of consecutive non-U labels and the index of the last non-U
label; on a U label after a run of at least 3 non-U labels, return that last
non-U index. -/
def f2lScan : List MoveRec → Int → Nat → Int → Option Int
  | [], _, _, _ => none
  | m :: rest, i, consecutiveNonU, lastNonU =>
    if startsWithU m.notn then
      if 3 ≤ consecutiveNonU then some lastNonU
      else f2lScan rest (i + 1) 0 lastNonU
    else f2lScan rest (i + 1) (consecutiveNonU + 1) i

/-- SolveParser.detectF2LEnd.  The fallback is
min (floor (length * 0.6)) (length - 8); for the list lengths arithmetic the
double product length * 0.6 always rounds so that its floor equals
3 * length / 5 (the true value is within 3e-16 of 3n/5 and at least 1/5 away
from the next integer when 5 does not divide 3n, and rounds to the integer
itself when it does), so the embedding uses integer division by 5.  Note the
fallback can be negative when length < 8.  All call sites pass
startIndex ≥ 0. -/
def detectF2LEnd (moves : List MoveRec) (startIndex : Int) : Int :=
  match f2lScan (moves.drop startIndex.toNat) startIndex 0 startIndex with
  | some r => r
  | none => min (3 * (moves.length : Int) / 5) ((moves.length : Int) - 8)

/-- The list of integers from a (inclusive) to b (exclusive). -/
def intRange (a b : Int) : List Int :=
  (List.range (b - a).toNat).map (fun k => a + (k : Int))

/-- SolveParser.looksLikePhaseEnd: the last three labels, joined, contain one
of six fixed trigger strings. -/
def looksLikePhaseEnd (moves : List MoveRec) : Bool :=
  if moves.length < 3 then false
  else
    let lastThree := joinSpace ((jsSlice moves (-3) (moves.length : Int)).map MoveRec.notn)
    ([joinSpace [tR, tU, tRp], joinSpace [tRp, tUp, tR], joinSpace [tF, tR, tFp],
      joinSpace [tFp, tL, tF], joinSpace [tU, tR, tUp], joinSpace [tUp, tRp, tU]]).any
      (fun pat => containsSub lastThree pat)

/-- SolveParser.detectOLLEnd: cap at startIndex + 15 and at length - 4; scan i
from startIndex + 3 below the cap for a phase-end looking prefix slice; if
none, return the cap (which can lie below startIndex for short solves). -/
def detectOLLEnd (moves : List MoveRec) (startIndex : Int) : Int :=
  let endIndex := min (startIndex + 15) ((moves.length : Int) - 4)
  match (intRange (startIndex + 3) endIndex).find?
      (fun i => looksLikePhaseEnd (jsSlice moves startIndex (i + 1))) with
  | some i => i
  | none => endIndex

/-- One phase record: labels, elapsed time, move count. -/
structure PhaseRec where
  moves : List (List Char)
  time : Int
  moveCount : Nat
deriving DecidableEq

/-- A phase record carrying an algorithm label (OLL / PLL). -/
structure AlgPhaseRec where
  moves : List (List Char)
  time : Int
  moveCount : Nat
  algorithm : String
deriving DecidableEq

structure F2LRec where
  pair1 : PhaseRec
  pair2 : PhaseRec
  pair3 : PhaseRec
  pair4 : PhaseRec
deriving DecidableEq

structure Phases where
  cross : PhaseRec
  f2l : F2LRec
  oll : AlgPhaseRec
  pll : AlgPhaseRec
deriving DecidableEq

def emptyPhase : PhaseRec := ⟨[], 0, 0⟩

def initialPhases : Phases :=
  ⟨emptyPhase, ⟨emptyPhase, emptyPhase, emptyPhase, emptyPhase⟩,
   ⟨[], 0, 0, ""⟩, ⟨[], 0, 0, ""⟩⟩

/-- SolveParser.analyzePhase on one segment: an empty segment leaves the
stored record unchanged (the early return), otherwise the record becomes the
labels, the relative-time span and the count of the segment. -/
def analyzePhase (segment : List MoveRec) (old : PhaseRec) : PhaseRec :=
  if segment.isEmpty then old
  else
    { moves := segment.map MoveRec.notn,
      time := ((segment.getLast?.map MoveRec.relativeTime).getD 0) -
        ((segment.head?.map MoveRec.relativeTime).getD 0),
      moveCount := segment.length }

/-- SolveParser.analyzeF2LPairs: an empty F2L segment leaves all four pairs
unchanged; otherwise split into four contiguous slices of
ceil (length / 4) moves (the last one clamped at the length).  The double
division length / 4 is exact, so Math.ceil is (length + 3) / 4. -/
def analyzeF2LPairs (f2lMoves : List MoveRec) (old : F2LRec) : F2LRec :=
  if f2lMoves.isEmpty then old
  else
    let len : Int := (f2lMoves.length : Int)
    let movesPerPair : Int := (len + 3) / 4
    { pair1 := analyzePhase (jsSlice f2lMoves 0 (min movesPerPair len)) old.pair1,
      pair2 := analyzePhase (jsSlice f2lMoves movesPerPair (min (2 * movesPerPair) len)) old.pair2,
      pair3 := analyzePhase (jsSlice f2lMoves (2 * movesPerPair) (min (3 * movesPerPair) len)) old.pair3,
      pair4 := analyzePhase (jsSlice f2lMoves (3 * movesPerPair) (min (4 * movesPerPair) len)) old.pair4 }

/-- SolveParser.analyzePhases as a pure function from the recorded move list
to the phase records (the source mutates currentSolve.phases in place,
starting from the all-empty records installed by startSolve). -/
def analyzePhases (moves : List MoveRec) : Phases :=
  if moves.isEmpty then initialPhases
  else
    let crossEnd := detectCrossEnd moves
    let cross := analyzePhase (jsSlice moves 0 (crossEnd + 1)) initialPhases.cross
    let f2lEnd := detectF2LEnd moves (crossEnd + 1)
    let f2lMoves := jsSlice moves (crossEnd + 1) (f2lEnd + 1)
    let f2l := analyzeF2LPairs f2lMoves initialPhases.f2l
    let ollEnd := detectOLLEnd moves (f2lEnd + 1)
    let ollMoves := jsSlice moves (f2lEnd + 1) (ollEnd + 1)
    let ollBase := analyzePhase ollMoves emptyPhase
    let pllMoves := jsSliceFrom moves (ollEnd + 1)
    let pllBase := analyzePhase pllMoves emptyPhase
    { cross := cross,
      f2l := f2l,
      oll := ⟨ollBase.moves, ollBase.time, ollBase.moveCount, detectOLLAlgorithm ollMoves⟩,
      pll := ⟨pllBase.moves, pllBase.time, pllBase.moveCount, detectPLLAlgorithm pllMoves⟩ }

/-- The ordered concatenation of all seven phase segments named by the spec. -/
def phaseConcat (ph : Phases) : List (List Char) :=
  ph.cross.moves ++ ph.f2l.pair1.moves ++ ph.f2l.pair2.moves ++ ph.f2l.pair3.moves ++
    ph.f2l.pair4.moves ++ ph.oll.moves ++ ph.pll.moves

/-- The Solve aggregate created by startSolve and finalized by stopSolve.
The tps field is totalMoves / (totalTime / 1000); when totalTime is 0 the JS
value is Infinity (or NaN for 0 moves) while Rat division yields 0 — no claim
concerns tps. -/
structure Solve where
  id : Int
  scramble : List Char
  startTime : Int
  endTime : Option Int
  totalTime : Int
  moves : List MoveRec
  phases : Phases
  totalMoves : Nat
  tps : Rat
deriving DecidableEq

/-- The mutable fields of a SolveParser instance. -/
structure ParserState where
  moves : List MoveRec
  currentSolve : Option Solve
  solveHistory : List Solve
  isRecording : Bool
  startTime : Option Int
deriving DecidableEq

def initialParserState : ParserState := ⟨[], none, [], false, none⟩

/-- SolveParser.startSolve (now is the Date.now() reading). -/
def startSolve (st : ParserState) (scramble : List Char) (now : Int) : ParserState :=
  { st with
    moves := [],
    isRecording := true,
    startTime := some now,
    currentSolve := some
      { id := now, scramble := scramble, startTime := now, endTime := none,
        totalTime := 0, moves := [], phases := initialPhases, totalMoves := 0, tps := 0 } }

/-- SolveParser.addMove: no-op unless recording with a current solve;
otherwise append the move record (with relativeTime against the recorded
start time) both to the flat list and to the current solve. -/
def addMove (st : ParserState) (d : MoveData) : ParserState :=
  match st.currentSolve, st.isRecording with
  | some cs, true =>
    let mv : MoveRec :=
      { notn := d.move, timestamp := d.timestamp, duration := d.duration,
        relativeTime := d.timestamp - st.startTime.getD 0 }
    { st with
      moves := st.moves ++ [mv],
      currentSolve := some { cs with moves := cs.moves ++ [mv] } }
  | _, _ => st

/-- SolveParser.stopSolve: finalize the current solve (totals, tps, phases via
analyzePhases on the flat move list), push it on the history and return it;
null when not recording. -/
def stopSolve (st : ParserState) (now : Int) : ParserState × Option Solve :=
  match st.currentSolve, st.isRecording with
  | some cs, true =>
    let total := now - cs.startTime
    let finalized : Solve :=
      { cs with
        endTime := some now,
        totalTime := total,
        totalMoves := st.moves.length,
        tps := (st.moves.length : Rat) / ((total : Rat) / 1000),
        phases := analyzePhases st.moves }
    ({ st with
        isRecording := false,
        currentSolve := some finalized,
        solveHistory := st.solveHistory ++ [finalized] },
      some finalized)
  | _, _ => (st, none)

/-- One full recording session: startSolve, a sequence of addMove calls, then
stopSolve; yields the finalized Solve. -/
def runSolve (scramble : List Char) (t0 : Int) (datas : List MoveData) (tEnd : Int) :
    Option Solve :=
  (stopSolve ((datas.foldl addMove (startSolve initialParserState scramble t0))) tEnd).2

end SolveParser

namespace SolveParser

/-- A move segment whose recorded labels are exactly the given tokens
(timestamps are irrelevant to the matcher). -/
def segOf (tokens : List (List Char)) : List MoveRec :=
  tokens.map (fun t => ⟨t, 0, none, 0⟩)

end SolveParser

/-- Counterexample to C4 as stated: the OLL segment whose labels are exactly
the canonical sequence of the OLL 27 table entry (R U R-prime U R U2 R-prime)
is labeled OLL 21, not OLL 27, because the OLL 21 entry carries the identical
pattern and iteration order decides. -/
theorem c4_counterexample :
    SolveParser.detectOLLAlgorithm
        (SolveParser.segOf [SolveParser.tR, SolveParser.tU, SolveParser.tRp, SolveParser.tU,
          SolveParser.tR, SolveParser.tU2, SolveParser.tRp]) = "OLL 21" ∧
    ("OLL 21" : String) ≠ "OLL 27" := by
  constructor <;> decide

/-- Claim C4 (amended): a segment exactly equal to a canonical table sequence
is labeled by the first table entry (iteration order) whose pattern the
sequence contains: entries OLL 21 through OLL 26 each map to their own name,
while the canonical tokens of OLL 27 map to OLL 21 (identical pattern, first
entry wins); an arbitrary 5-move sequence unrelated to every entry maps to
Unknown OLL. -/
theorem c4_matcher_amended :
    SolveParser.detectOLLAlgorithm (SolveParser.segOf [SolveParser.tR, SolveParser.tU,
      SolveParser.tRp, SolveParser.tU, SolveParser.tR, SolveParser.tU2, SolveParser.tRp]) =
        "OLL 21" ∧
    SolveParser.detectOLLAlgorithm (SolveParser.segOf [SolveParser.tR, SolveParser.tU2,
      SolveParser.tR2, SolveParser.tUp, SolveParser.tR2, SolveParser.tUp, SolveParser.tR2,
      SolveParser.tU2, SolveParser.tR]) = "OLL 22" ∧
    SolveParser.detectOLLAlgorithm (SolveParser.segOf [SolveParser.tR2, SolveParser.tD,
      SolveParser.tRp, SolveParser.tU2, SolveParser.tR, SolveParser.tDp, SolveParser.tRp,
      SolveParser.tU2, SolveParser.tRp]) = "OLL 23" ∧
    SolveParser.detectOLLAlgorithm (SolveParser.segOf [SolveParser.tR, SolveParser.tU,
      SolveParser.tRp, SolveParser.tUp, SolveParser.tRp, SolveParser.tF, SolveParser.tR,
      SolveParser.tFp]) = "OLL 24" ∧
    SolveParser.detectOLLAlgorithm (SolveParser.segOf [SolveParser.tFp, SolveParser.tR,
      SolveParser.tU, SolveParser.tRp, SolveParser.tUp, SolveParser.tRp, SolveParser.tF,
      SolveParser.tR]) = "OLL 25" ∧
    SolveParser.detectOLLAlgorithm (SolveParser.segOf [SolveParser.tR, SolveParser.tU2,
      SolveParser.tRp, SolveParser.tUp, SolveParser.tR, SolveParser.tUp, SolveParser.tRp]) =
        "OLL 26" ∧
    SolveParser.detectOLLAlgorithm (SolveParser.segOf [['D', '2'], ['L', '2'],
      SolveParser.tB2, ['D', '2'], ['L', '2']]) = "Unknown OLL" := by
  refine ⟨?_, ?_, ?_, ?_, ?_, ?_, ?_⟩ <;> decide

/-! ### Slice chaining lemmas for the phase partition -/

lemma take_chain (l : List α) {a b : Nat} (h : a ≤ b) :
    l.take a ++ (l.take b).drop a = l.take b := by
  have h0 := List.take_append_drop a (l.take b)
  rwa [List.take_take, min_eq_left h] at h0

lemma take_clamp (l : List α) (n : Nat) : l.take (min n l.length) = l.take n := by
  rcases le_total n l.length with h | h
  · rw [min_eq_left h]
  · rw [min_eq_right h, List.take_length, List.take_of_length_le h]

lemma drop_clamp (X : List α) (n m : Nat) (hX : X.length ≤ m) : X.drop (min n m) = X.drop n := by
  rcases le_total n m with h | h
  · rw [min_eq_left h]
  · rw [min_eq_right h, List.drop_eq_nil_of_le hX, List.drop_eq_nil_of_le (le_trans hX h)]

lemma jsSlice_nonneg (l : List α) {a b : Int} (ha : 0 ≤ a) (hb : 0 ≤ b) :
    jsSlice l a b = (l.take b.toNat).drop a.toNat := by
  unfold jsSlice jsSliceClampIdx
  rw [if_neg (by omega), if_neg (by omega), take_clamp]
  exact drop_clamp _ _ _ (by simp)

lemma jsSliceFrom_nonneg (l : List α) {a : Int} (ha : 0 ≤ a) :
    jsSliceFrom l a = l.drop a.toNat := by
  unfold jsSliceFrom
  rw [jsSlice_nonneg l ha (by omega), Int.toNat_natCast, List.take_length]

namespace SolveParser

lemma analyzePhase_moves (seg : List MoveRec) (old : PhaseRec) (hold : old.moves = []) :
    (analyzePhase seg old).moves = seg.map MoveRec.notn := by
  unfold analyzePhase
  by_cases h : seg.isEmpty
  · rw [if_pos h, List.isEmpty_iff.mp h, hold]
    rfl
  · rw [if_neg h]

lemma detectCrossEnd_nonneg {moves : List MoveRec} (h : moves ≠ []) :
    0 ≤ detectCrossEnd moves := by
  unfold detectCrossEnd
  cases hfind : (moves.take 12).enum.find? (fun p => startsWithU p.2.notn) with
  | some p => exact le_max_left 0 _
  | none =>
    have hlen : 1 ≤ moves.length := List.length_pos.mpr h
    simp only [le_min_iff]
    omega

lemma f2lPairs_concat (fl : List MoveRec) :
    (analyzeF2LPairs fl initialPhases.f2l).pair1.moves ++
      (analyzeF2LPairs fl initialPhases.f2l).pair2.moves ++
      (analyzeF2LPairs fl initialPhases.f2l).pair3.moves ++
      (analyzeF2LPairs fl initialPhases.f2l).pair4.moves = fl.map MoveRec.notn := by
  by_cases hfl : fl.isEmpty
  · rw [List.isEmpty_iff.mp hfl]
    rfl
  · unfold analyzeF2LPairs
    rw [if_neg hfl]
    simp only
    set n := fl.length with hn
    set mI : Int := ((n : Int) + 3) / 4 with hmI
    have hm0 : 0 ≤ mI := by omega
    have h4m : (n : Int) ≤ 4 * mI := by omega
    set m := mI.toNat with hm
    have e0 : (0 : Int).toNat = 0 := rfl
    have e1 : (min mI (n : Int)).toNat = min m n := by omega
    have e2 : (min (2 * mI) (n : Int)).toNat = min (2 * m) n := by omega
    have e3 : (min (3 * mI) (n : Int)).toNat = min (3 * m) n := by omega
    have e4 : (min (4 * mI) (n : Int)).toNat = min (4 * m) n := by omega
    have eA : mI.toNat = m := rfl
    have eB : (2 * mI).toNat = 2 * m := by omega
    have eC : (3 * mI).toNat = 3 * m := by omega
    rw [analyzePhase_moves _ _ rfl, analyzePhase_moves _ _ rfl,
      analyzePhase_moves _ _ rfl, analyzePhase_moves _ _ rfl]
    rw [jsSlice_nonneg fl le_rfl (by omega), jsSlice_nonneg fl hm0 (by omega),
      jsSlice_nonneg fl (by omega) (by omega), jsSlice_nonneg fl (by omega) (by omega)]
    rw [e0, e1, e2, e3, e4, eA, eB, eC]
    rw [take_clamp, take_clamp, take_clamp, take_clamp]
    rw [List.drop_zero]
    rw [← List.map_append, ← List.map_append, ← List.map_append]
    congr 1
    have c1 : fl.take m ++ (fl.take (2 * m)).drop m = fl.take (2 * m) :=
      take_chain fl (by omega)
    have c2 : fl.take (2 * m) ++ (fl.take (3 * m)).drop (2 * m) = fl.take (3 * m) :=
      take_chain fl (by omega)
    have c3 : fl.take (3 * m) ++ (fl.take (4 * m)).drop (3 * m) = fl.take (4 * m) :=
      take_chain fl (by omega)
    have hfin : fl.take (4 * m) = fl := List.take_of_length_le (by omega)
    calc fl.take m ++ (fl.take (2 * m)).drop m ++ (fl.take (3 * m)).drop (2 * m) ++
          (fl.take (4 * m)).drop (3 * m)
        = fl.take (2 * m) ++ (fl.take (3 * m)).drop (2 * m) ++ (fl.take (4 * m)).drop (3 * m) := by
          rw [c1]
      _ = fl.take (3 * m) ++ (fl.take (4 * m)).drop (3 * m) := by rw [c2]
      _ = fl := by rw [c3, hfin]

/-- Claim C1 (amended): when the three detected phase boundaries are ordered
(cross end at or before F2L end at or before OLL end; the cross end is
automatically nonnegative for a nonempty move list), the concatenation
cross ++ f2l pair1..4 ++ oll ++ pll of the segments computed by analyzePhases
is exactly the recorded ordered move-label list.  For short or atypical
solves the detected boundaries can be out of order (even negative) and the
segments then overlap or drop moves. -/
theorem c1_partition_amended (moves : List MoveRec) (hne : moves ≠ [])
    (hcf : detectCrossEnd moves ≤ detectF2LEnd moves (detectCrossEnd moves + 1))
    (hfo : detectF2LEnd moves (detectCrossEnd moves + 1) ≤
      detectOLLEnd moves (detectF2LEnd moves (detectCrossEnd moves + 1) + 1)) :
    phaseConcat (analyzePhases moves) = moves.map MoveRec.notn := by
  have hc0 : 0 ≤ detectCrossEnd moves := detectCrossEnd_nonneg hne
  unfold analyzePhases
  rw [if_neg (by simpa [List.isEmpty_iff] using hne)]
  simp only
  set c := detectCrossEnd moves with hc
  set f := detectF2LEnd moves (c + 1) with hf
  set o := detectOLLEnd moves (f + 1) with ho
  unfold phaseConcat
  simp only
  rw [analyzePhase_moves _ _ rfl, analyzePhase_moves _ _ rfl, analyzePhase_moves _ _ rfl]
  have hgroup : ∀ (x1 q1 q2 q3 q4 x2 x3 : List (List Char)),
      x1 ++ q1 ++ q2 ++ q3 ++ q4 ++ x2 ++ x3 = x1 ++ (q1 ++ q2 ++ q3 ++ q4) ++ x2 ++ x3 := by
    intro x1 q1 q2 q3 q4 x2 x3
    simp [List.append_assoc]
  rw [hgroup, f2lPairs_concat]
  rw [jsSlice_nonneg moves (by omega) (by omega),
    jsSlice_nonneg moves (by omega) (by omega),
    jsSlice_nonneg moves (by omega) (by omega),
    jsSliceFrom_nonneg moves (show (0 : Int) ≤ o + 1 by omega)]
  set A := (c + 1).toNat with hA
  set B := (f + 1).toNat with hB
  set C := (o + 1).toNat with hC
  have hAB : A ≤ B := by omega
  have hBC : B ≤ C := by omega
  have hz : ((0 : Int).toNat : Nat) = 0 := rfl
  rw [hz, List.drop_zero]
  rw [← List.map_append, ← List.map_append, ← List.map_append]
  congr 1
  have k1 : moves.take A ++ (moves.take B).drop A = moves.take B := take_chain moves hAB
  have k2 : moves.take B ++ (moves.take C).drop B = moves.take C := take_chain moves hBC
  have k3 : moves.take C ++ moves.drop C = moves := List.take_append_drop C moves
  calc moves.take A ++ (moves.take B).drop A ++ (moves.take C).drop B ++ moves.drop C
      = moves.take B ++ (moves.take C).drop B ++ moves.drop C := by rw [k1]
    _ = moves.take C ++ moves.drop C := by rw [k2]
    _ = moves := k3

/-- A 24-move solve (6 cross moves, an F2L block, an OLL trigger block, a PLL
tail) on which the three detected boundaries come out ordered: 5, 12, 16. -/
def sampleSolveMoves : List MoveRec :=
  ([tD, tF, tR, tL, ['B'], tD, tU, tR, tUp, tRp, tF, tR, tFp, tU, tR, tU, tRp, tU, tR,
    tU2, tRp, tF, tR, tFp]).enum.map
    (fun p => ⟨p.2, 100 * ((p.1 : Int) + 1), none, 100 * ((p.1 : Int) + 1)⟩)

end SolveParser

/-- Witness for the amended C1 on the 24-move sample solve. -/
theorem c1_witness :
    SolveParser.phaseConcat (SolveParser.analyzePhases SolveParser.sampleSolveMoves) =
      SolveParser.sampleSolveMoves.map MoveRec.notn :=
  SolveParser.c1_partition_amended SolveParser.sampleSolveMoves (by decide) (by decide) (by decide)

/-- Counterexample to C1 as stated: a finalized solve with the single recorded
move R has cross segment [R] and pll segment [R] (the short-solve fallbacks
drive the F2L and OLL boundaries negative, and the negative slice indices of
the pll slice wrap around), so the concatenation counts the one move twice. -/
theorem c1_counterexample :
    SolveParser.phaseConcat (SolveParser.analyzePhases [⟨['R'], 100, none, 100⟩]) =
        [['R'], ['R']] ∧
    ([⟨['R'], 100, none, 100⟩] : List MoveRec).map MoveRec.notn = [['R']] ∧
    ([['R'], ['R']] : List (List Char)) ≠ [['R']] := by
  refine ⟨by decide, by decide, by decide⟩

namespace SolveParser

/-- The move record addMove builds from a moveData payload, given the
recorded solve start time. -/
def mkRec (t0 : Option Int) (d : MoveData) : MoveRec :=
  ⟨d.move, d.timestamp, d.duration, d.timestamp - t0.getD 0⟩

lemma foldl_addMove (datas : List MoveData) (st : ParserState) (cs : Solve)
    (hcs : st.currentSolve = some cs) (hrec : st.isRecording = true) :
    ∃ cs2, (datas.foldl addMove st).currentSolve = some cs2 ∧
      (datas.foldl addMove st).isRecording = true ∧
      cs2.moves = cs.moves ++ datas.map (mkRec st.startTime) := by
  induction datas generalizing st cs with
  | nil => exact ⟨cs, by simpa using hcs, by simpa using hrec, by simp⟩
  | cons d rest ih =>
    simp only [List.foldl_cons, List.map_cons]
    have hA : (addMove st d).currentSolve =
        some { cs with moves := cs.moves ++ [mkRec st.startTime d] } := by
      simp [addMove, hcs, hrec, mkRec]
    have hB : (addMove st d).isRecording = true := by
      simp [addMove, hcs, hrec]
    have hC : (addMove st d).startTime = st.startTime := by
      simp [addMove, hcs, hrec]
    obtain ⟨cs2, h1, h2, h3⟩ := ih (addMove st d) _ hA hB
    refine ⟨cs2, h1, h2, ?_⟩
    rw [h3, hC]
    simp

end SolveParser

/-- Claim C6 (amended): addMove records the incoming timestamps verbatim in
call order and enforces nothing, so the timestamps inside a finalized Solve
are strictly increasing exactly when the addMove call sequence that built it
carried strictly increasing timestamps. -/
theorem c6_addMove_monotone_amended (scr : List Char) (t0 : Int) (datas : List MoveData)
    (tEnd : Int)
    (hmono : List.Chain' (fun a b : MoveData => a.timestamp < b.timestamp) datas) :
    (SolveParser.runSolve scr t0 datas tEnd).elim True
      (fun s => List.Chain' (fun a b : MoveRec => a.timestamp < b.timestamp) s.moves) := by
  unfold SolveParser.runSolve
  obtain ⟨cs2, hcs2, hrec2, hmoves⟩ :=
    SolveParser.foldl_addMove datas (SolveParser.startSolve SolveParser.initialParserState scr t0)
      _ rfl rfl
  simp only [SolveParser.stopSolve, hcs2, hrec2]
  simp only [Option.elim]
  rw [hmoves]
  simp only [SolveParser.startSolve, List.nil_append]
  rw [List.chain'_map]
  exact hmono

/-- Witness for the amended C6: two strictly increasing addMove calls yield a
finalized solve with strictly increasing recorded timestamps. -/
theorem c6_witness :
    (SolveParser.runSolve [] 0 [⟨['R'], 100, none⟩, ⟨['U'], 400, none⟩] 5000).elim True
      (fun s => List.Chain' (fun a b : MoveRec => a.timestamp < b.timestamp) s.moves) :=
  c6_addMove_monotone_amended [] 0 [⟨['R'], 100, none⟩, ⟨['U'], 400, none⟩] 5000
    (by simp [List.chain'_cons])

/-- Counterexample to C6 as stated: two addMove calls carrying the same
timestamp 100 build a finalized Solve whose consecutive recorded timestamps
are equal, not strictly increasing. -/
theorem c6_counterexample :
    ((SolveParser.runSolve [] 0 [⟨['R'], 100, none⟩, ⟨['U'], 100, none⟩] 5000).map
      (fun s => s.moves.map MoveRec.timestamp)) = some [100, 100] ∧
    ¬ List.Chain' (fun a b : Int => a < b) [100, 100] := by
  constructor
  · decide
  · simp [List.chain'_cons]

/-! ## CubeCoachApp.updateSolveState (app.js lines 197-265) and Timer.start

The cubeState string field takes the values solved, scrambled, solving; the
Scrambling / ReadyForInspection phases of the spec are the scrambled state
with scrambleInProgress respectively isWaitingForInspection set.  The
15-second inactivity timer is modelled by a pending flag armed by the move
handler and an explicit timeout-fires event running the setTimeout callback
(with its internal guard).  timerStartCount counts successful Timer.start
calls (Timer.start returns false without effects when already running). -/

namespace App

inductive CubeState
  | solved
  | scrambled
  | solving
deriving DecidableEq

open SolveParser in
structure AppState where
  cubeState : CubeState
  scrambleStartTime : Option Int
  scrambleInProgress : Bool
  movesSinceScramble : Nat
  isWaitingForInspection : Bool
  solveStarted : Bool
  lastMoveTime : Int
  timerRunning : Bool
  timerStartCount : Nat
  scrambleTimeoutPending : Bool
  parser : ParserState
  scrambleText : List Char
deriving DecidableEq

def initialAppState (scrambleText : List Char) : AppState :=
  ⟨.solved, none, false, 0, false, false, 0, false, 0, false,
    SolveParser.initialParserState, scrambleText⟩

/-- Timer.start: false and no effect when already running; otherwise start
(the ghost counter records the successful start). -/
def timerStart (st : AppState) : AppState × Bool :=
  if st.timerRunning then (st, false)
  else ({ st with timerRunning := true, timerStartCount := st.timerStartCount + 1 }, true)

/-- CubeCoachApp.startTimer: on a successful Timer.start, set solveStarted and
begin solve recording with the scramble input. -/
def appStartTimer (st : AppState) (now : Int) : AppState :=
  match timerStart st with
  | (st1, true) =>
    { st1 with
      solveStarted := true,
      parser := SolveParser.startSolve st1.parser st1.scrambleText now }
  | (st1, false) => st1

/-- CubeCoachApp.updateSolveState. -/
def updateSolveState (st : AppState) (d : MoveData) (now : Int) : AppState :=
  match st.cubeState with
  | .solved =>
    { st with
      cubeState := .scrambled,
      scrambleStartTime := some now,
      movesSinceScramble := 1,
      scrambleInProgress := true,
      scrambleTimeoutPending := true }
  | .scrambled =>
    if st.scrambleInProgress then
      { st with
        movesSinceScramble := st.movesSinceScramble + 1,
        scrambleTimeoutPending := true }
    else if st.isWaitingForInspection then
      let st1 :=
        { st with cubeState := .solving, isWaitingForInspection := false, solveStarted := true }
      let st2 := appStartTimer st1 now
      { st2 with parser := SolveParser.addMove st2.parser d }
    else st
  | .solving =>
    if st.solveStarted then { st with parser := SolveParser.addMove st.parser d } else st

/-- CubeCoachApp.handleMoveData: display (UI, no state), updateSolveState,
then record lastMoveTime. -/
def handleMoveData (st : AppState) (d : MoveData) (now : Int) : AppState :=
  { updateSolveState st d now with lastMoveTime := d.timestamp }

/-- The body of the 15-second setTimeout callback, run when the pending
timeout fires; the internal guard re-checks the state. -/
def scrambleTimeoutFires (st : AppState) : AppState :=
  if st.scrambleTimeoutPending then
    let st0 := { st with scrambleTimeoutPending := false }
    if st0.cubeState = CubeState.scrambled ∧ st0.scrambleInProgress = true then
      { st0 with scrambleInProgress := false, isWaitingForInspection := true }
    else st0
  else st

end App

/-- Claim C5: from the initial Solved state, the event sequence
[move, move, move, inactivity timeout fires, move] drives the machine through
Scrambling (scrambled with scrambleInProgress), ReadyForInspection (scrambled
with isWaitingForInspection), then Solving; the solve timer is started
exactly once, on the 4th move, and that 4th move is the first move recorded
into the active Solve. -/
theorem c5_state_machine_scenario (d1 d2 d3 d4 : MoveData) (t1 t2 t3 t4 : Int)
    (scr : List Char) :
    let s1 := App.handleMoveData (App.initialAppState scr) d1 t1
    let s2 := App.handleMoveData s1 d2 t2
    let s3 := App.handleMoveData s2 d3 t3
    let s4 := App.scrambleTimeoutFires s3
    let s5 := App.handleMoveData s4 d4 t4
    (s1.cubeState = .scrambled ∧ s1.scrambleInProgress = true) ∧
    (s2.cubeState = .scrambled ∧ s2.scrambleInProgress = true) ∧
    (s3.cubeState = .scrambled ∧ s3.scrambleInProgress = true) ∧
    (s4.cubeState = .scrambled ∧ s4.scrambleInProgress = false ∧
      s4.isWaitingForInspection = true) ∧
    s5.cubeState = .solving ∧
    s4.timerStartCount = 0 ∧
    s5.timerStartCount = 1 ∧
    s5.timerRunning = true ∧
    s5.parser.moves = [⟨d4.move, d4.timestamp, d4.duration, d4.timestamp - t4⟩] := by
  exact ⟨⟨rfl, rfl⟩, ⟨rfl, rfl⟩, ⟨rfl, rfl⟩, ⟨rfl, rfl, rfl⟩, rfl, rfl, rfl, rfl, rfl⟩

/-! ## GANBluetooth (gan-bluetooth.js, second revision, lines 786-2029)

Packets are byte lists (each entry 0..255).  The handler state carries the
four mutable fields the data path touches: lastDataTime, lastDataBytes,
lastMovePacket, dataBuffer.  Events are tagged; hex strings and console
logging are display-only and omitted. -/

namespace GAN

/-- calculatePacketSignature result (first4 / last4 via slice semantics). -/
structure PacketSig where
  sum : Nat
  xorv : Nat
  checksum : Nat
  first4 : List Nat
  last4 : List Nat
  length : Nat
deriving DecidableEq

def calculatePacketSignature (data : List Nat) : PacketSig :=
  ⟨data.sum, data.foldl Nat.xor 0, data.sum % 256, data.take 4,
    data.drop (data.length - 4), data.length⟩

/-- The object stored in lastMovePacket: bytes, signature, timestamp. -/
structure StoredPacket where
  data : List Nat
  signature : PacketSig
  timestamp : Int
deriving DecidableEq

structure GANState where
  lastDataTime : Option Int
  lastDataBytes : Option (List Nat)
  lastMovePacket : Option StoredPacket
  dataBuffer : List Nat
deriving DecidableEq

def initialGANState : GANState := ⟨none, none, none, []⟩

/-- The outcome of couldBeMove, one per return path (the JS function returns
true only on the accepted path). -/
inductive ClassifyOutcome
  | rejectedFrequent
  | rejectedDuplicate
  | rejectedSmall
  | statusPattern
  | accepted
deriving DecidableEq

def statusPatterns : List (List Nat) := [[0, 0], [255, 255], [1, 0], [2, 0]]

/-- GANBluetooth.couldBeMove.  Path 1 (rate limit) assigns lastDataTime = now
before returning false, and the fall-through assigns it unconditionally, so
every call ends with lastDataTime = now; lastDataBytes is stored only on the
accepted path.  The truthiness test on this.lastDataTime makes a stored value
of 0 behave like null. -/
def couldBeMove (st : GANState) (data : List Nat) (now : Int) :
    ClassifyOutcome × GANState :=
  let tooFrequent : Bool := match st.lastDataTime with
    | some t => (!(t == 0)) && (now - t < 200)
    | none => false
  if tooFrequent then (.rejectedFrequent, { st with lastDataTime := some now })
  else
    let st1 := { st with lastDataTime := some now }
    let duplicate : Bool := match st1.lastDataBytes with
      | some b => b == data
      | none => false
    if duplicate then (.rejectedDuplicate, st1)
    else if data.length < 3 then (.rejectedSmall, st1)
    else if statusPatterns.any (fun p => decide (p.length ≤ data.length) && p.isPrefixOf data)
    then (.statusPattern, st1)
    else (.accepted, { st1 with lastDataBytes := some data })

/-- One byte-position difference between two packets (the display-only
fromHex / toHex fields are omitted). -/
structure PacketChange where
  position : Nat
  fromByte : Nat
  toByte : Nat
  delta : Int
deriving DecidableEq

structure Differences where
  totalChanges : Nat
  changes : List PacketChange
  significantChanges : List PacketChange
  changePositions : List Nat
deriving DecidableEq

/-- GANBluetooth.analyzePacketDifferences: positions up to the shorter length
where the bytes differ; significant when the absolute delta exceeds 16. -/
def analyzePacketDifferences (p1 p2 : List Nat) : Differences :=
  let changes := (p1.zip p2).enum.filterMap (fun q =>
    if q.2.1 ≠ q.2.2 then some (⟨q.1, q.2.1, q.2.2, (q.2.2 : Int) - (q.2.1 : Int)⟩ : PacketChange)
    else none)
  ⟨changes.length, changes, changes.filter (fun ch => decide (16 < ch.delta.natAbs)),
    changes.map PacketChange.position⟩

/-- GANBluetooth.guessMoveFromPattern: placeholder decode keyed on the change
count (5 or more changes: U; 3 or more: U-prime; fewer: undecodable). -/
def guessMoveFromPattern (differences : Differences) : Option (List Char) :=
  if 5 ≤ differences.totalChanges then some ['U']
  else if 3 ≤ differences.totalChanges then some ['U', primeChar]
  else none

/-- GANBluetooth.decodeMoveFromPacketChange: no change means no move; with at
least 3 changes and at least one significant one, return the guessed move (or
the label Unknown) with confidence 0.7 when guessed, else 0.3. -/
def decodeMoveFromPacketChange (previousPacket currentPacket : StoredPacket) :
    Option (List Char × Rat) :=
  let differences := analyzePacketDifferences previousPacket.data currentPacket.data
  if differences.totalChanges = 0 then none
  else if 3 ≤ differences.totalChanges ∧ 1 ≤ differences.significantChanges.length then
    let mv := guessMoveFromPattern differences
    some (mv.getD (("Unknown").data), if mv.isSome then (7 : Rat) / 10 else (3 : Rat) / 10)
  else none

/-- Events emitted by the handler (payloads trimmed to what the claims
count: the tag, the move label and confidence where present). -/
inductive GANEvent
  | rawData (bytes : List Nat) (ts : Int)
  | moveData (move : List Char) (confidence : Option Rat) (ts : Int)
  | cubeState
  | gyroData
deriving DecidableEq

/-- GANBluetooth.parseRawMoveData: only 20-byte packets are analyzed; the
first one is stored as baseline; a changed packet more than 300 ms after the
stored one is diffed and possibly decoded into a single speculative move, and
the stored packet is replaced; otherwise nothing changes. -/
def parseRawMoveData (st : GANState) (data : List Nat) (now : Int) :
    Option GANEvent × GANState :=
  if data.length = 20 then
    let packetSignature := calculatePacketSignature data
    match st.lastMovePacket with
    | none => (none, { st with lastMovePacket := some ⟨data, packetSignature, now⟩ })
    | some lastPkt =>
      let timeSinceLastPacket := now - lastPkt.timestamp
      let isDifferentPacket : Bool := !(data == lastPkt.data)
      if isDifferentPacket && (300 < timeSinceLastPacket) then
        let possibleMove := decodeMoveFromPacketChange lastPkt ⟨data, packetSignature, now⟩
        let st2 := { st with lastMovePacket := some ⟨data, packetSignature, now⟩ }
        match possibleMove with
        | some mv => (some (.moveData mv.1 (some mv.2) now), st2)
        | none => (none, st2)
      else (none, st)
  else (none, st)

/-- The 18-entry GAN move table of parseMoveData; bytes outside map to the
label Unknown. -/
def ganMoveLabel (b : Nat) : List Char :=
  if b = 1 then ['U'] else if b = 2 then ['U', primeChar] else if b = 3 then ['U', '2']
  else if b = 4 then ['D'] else if b = 5 then ['D', primeChar] else if b = 6 then ['D', '2']
  else if b = 7 then ['R'] else if b = 8 then ['R', primeChar] else if b = 9 then ['R', '2']
  else if b = 10 then ['L'] else if b = 11 then ['L', primeChar] else if b = 12 then ['L', '2']
  else if b = 13 then ['F'] else if b = 14 then ['F', primeChar] else if b = 15 then ['F', '2']
  else if b = 16 then ['B'] else if b = 17 then ['B', primeChar] else if b = 18 then ['B', '2']
  else ("Unknown").data

/-- GANBluetooth.parseDataBuffer as a fuel-indexed loop over the buffer: a
0x01 header consumes 6 bytes into a cubeState event, 0x02 consumes 4 into a
moveData event, 0x03 is skipped, 0x04 consumes 12 into a gyroData event, any
other byte is skipped; an incomplete message stops the loop and stays
buffered.  Every iteration consumes at least one byte, so fuel equal to the
buffer length suffices. -/
def parseBufAux (now : Int) : Nat → List Nat → List GANEvent × List Nat
  | 0, buf => ([], buf)
  | _ + 1, [] => ([], [])
  | fuel + 1, b :: rest =>
    if b = 1 then
      if 5 ≤ rest.length then
        let res := parseBufAux now fuel ((b :: rest).drop 6)
        (.cubeState :: res.1, res.2)
      else ([], b :: rest)
    else if b = 2 then
      if 3 ≤ rest.length then
        let msg := (b :: rest).take 4
        let res := parseBufAux now fuel ((b :: rest).drop 4)
        (.moveData (ganMoveLabel (msg.getD 1 0)) none now :: res.1, res.2)
      else ([], b :: rest)
    else if b = 3 then parseBufAux now fuel rest
    else if b = 4 then
      if 11 ≤ rest.length then
        let res := parseBufAux now fuel ((b :: rest).drop 12)
        (.gyroData :: res.1, res.2)
      else ([], b :: rest)
    else parseBufAux now fuel rest

/-- GANBluetooth.handleDataReceived: emit rawData, run the differential path
when couldBeMove accepts (emitting at most one moveData), append the packet
to the buffer and run the header dispatch. -/
def handleDataReceived (st : GANState) (data : List Nat) (now : Int) :
    GANState × List GANEvent :=
  let cls := couldBeMove st data now
  let raw := if cls.1 = ClassifyOutcome.accepted then parseRawMoveData cls.2 data now
             else (none, cls.2)
  let newBuffer := raw.2.dataBuffer ++ data
  let res := parseBufAux now newBuffer.length newBuffer
  ({ raw.2 with dataBuffer := res.2 },
    GANEvent.rawData data now :: (raw.1.toList ++ res.1))

/-- The moveData event (if any) produced by the differential-analysis path. -/
def rawMoveOf (st : GANState) (data : List Nat) (now : Int) : Option GANEvent :=
  let cls := couldBeMove st data now
  (if cls.1 = ClassifyOutcome.accepted then parseRawMoveData cls.2 data now
   else (none, cls.2)).1

def isMoveEvent : GANEvent → Bool
  | .moveData _ _ _ => true
  | _ => false

def countMove (evs : List GANEvent) : Nat := evs.countP isMoveEvent

/-- The number of complete 0x02-headed messages the buffer loop consumes. -/
def bufMoveCountAux : Nat → List Nat → Nat
  | 0, _ => 0
  | _ + 1, [] => 0
  | fuel + 1, b :: rest =>
    if b = 1 then
      if 5 ≤ rest.length then bufMoveCountAux fuel ((b :: rest).drop 6) else 0
    else if b = 2 then
      if 3 ≤ rest.length then 1 + bufMoveCountAux fuel ((b :: rest).drop 4) else 0
    else if b = 3 then bufMoveCountAux fuel rest
    else if b = 4 then
      if 11 ≤ rest.length then bufMoveCountAux fuel ((b :: rest).drop 12) else 0
    else bufMoveCountAux fuel rest

def bufMoveCount (buf : List Nat) : Nat := bufMoveCountAux buf.length buf

lemma countMove_parseBufAux (now : Int) (fuel : Nat) (buf : List Nat) :
    List.countP isMoveEvent (parseBufAux now fuel buf).1 = bufMoveCountAux fuel buf := by
  induction fuel generalizing buf with
  | zero => rfl
  | succ fuel ih =>
    cases buf with
    | nil => rfl
    | cons b rest =>
      simp only [parseBufAux, bufMoveCountAux]
      split_ifs <;> (simp [isMoveEvent, ih]; try omega)

lemma couldBeMove_dataBuffer (st : GANState) (data : List Nat) (now : Int) :
    (couldBeMove st data now).2.dataBuffer = st.dataBuffer := by
  unfold couldBeMove
  dsimp only
  split_ifs <;> rfl

lemma parseRawMoveData_dataBuffer (st : GANState) (data : List Nat) (now : Int) :
    (parseRawMoveData st data now).2.dataBuffer = st.dataBuffer := by
  unfold parseRawMoveData
  dsimp only
  split_ifs with h
  · cases hm : st.lastMovePacket with
    | none => rfl
    | some lastPkt =>
      dsimp only
      split_ifs with h2
      · cases hd : decodeMoveFromPacketChange lastPkt ⟨data, calculatePacketSignature data, now⟩
          <;> rfl
      · rfl
  · rfl

end GAN

namespace GAN

lemma parseRawMoveData_isMove (st : GANState) (data : List Nat) (now : Int) (ev : GANEvent)
    (h : (parseRawMoveData st data now).1 = some ev) : isMoveEvent ev = true := by
  unfold parseRawMoveData at h
  dsimp only at h
  by_cases h20 : data.length = 20
  · rw [if_pos h20] at h
    cases hm : st.lastMovePacket with
    | none =>
      rw [hm] at h
      simp at h
    | some lastPkt =>
      rw [hm] at h
      dsimp only at h
      by_cases hch : (!(data == lastPkt.data) && decide (300 < now - lastPkt.timestamp)) = true
      · rw [if_pos hch] at h
        cases hd : decodeMoveFromPacketChange lastPkt
            ⟨data, calculatePacketSignature data, now⟩ with
        | none =>
          rw [hd] at h
          simp at h
        | some mv =>
          rw [hd] at h
          dsimp only at h
          injection h with h1
          subst h1
          rfl
      · rw [if_neg hch] at h
        simp at h
  · rw [if_neg h20] at h
    simp at h

lemma countMove_handle (st : GANState) (data : List Nat) (now : Int) :
    countMove (handleDataReceived st data now).2 =
      (rawMoveOf st data now).toList.length + bufMoveCount (st.dataBuffer ++ data) := by
  have hdb : (if (couldBeMove st data now).1 = ClassifyOutcome.accepted then
      parseRawMoveData (couldBeMove st data now).2 data now
      else (none, (couldBeMove st data now).2)).2.dataBuffer = st.dataBuffer := by
    split_ifs
    · rw [parseRawMoveData_dataBuffer, couldBeMove_dataBuffer]
    · exact couldBeMove_dataBuffer st data now
  have hraw : (if (couldBeMove st data now).1 = ClassifyOutcome.accepted then
      parseRawMoveData (couldBeMove st data now).2 data now
      else (none, (couldBeMove st data now).2)).1 = rawMoveOf st data now := rfl
  unfold handleDataReceived
  dsimp only
  rw [hdb, hraw]
  cases hr : rawMoveOf st data now with
  | none =>
    have h0 : isMoveEvent (GANEvent.rawData data now) = false := rfl
    simp [countMove, h0, countMove_parseBufAux, bufMoveCount, List.countP_cons]
  | some ev =>
    have hmv : isMoveEvent ev = true := by
      unfold rawMoveOf at hr
      dsimp only at hr
      by_cases hacc : (couldBeMove st data now).1 = ClassifyOutcome.accepted
      · rw [if_pos hacc] at hr
        exact parseRawMoveData_isMove _ _ _ _ hr
      · rw [if_neg hacc] at hr
        simp at hr
    have h0 : isMoveEvent (GANEvent.rawData data now) = false := rfl
    simp [countMove, h0, hmv, countMove_parseBufAux, bufMoveCount, List.countP_cons]
    omega

end GAN

/-- Counterexample to C2 as stated: from the initial handler state, the single
8-byte packet 02 07 07 07 02 07 07 07 makes the buffered header dispatch
consume two complete 0x02 messages, so two moveData events are emitted while
processing one raw packet. -/
theorem c2_counterexample :
    GAN.countMove (GAN.handleDataReceived GAN.initialGANState [2, 7, 7, 7, 2, 7, 7, 7] 1000).2 =
        2 ∧
    ¬ (2 ≤ 1) := by
  refine ⟨by decide, by decide⟩

/-- Claim C2 (amended): per incoming packet, the differential-analysis path
emits at most one moveData event, and the buffered header dispatch emits
exactly one moveData event per complete 0x02-headed 4-byte message it
consumes from the concatenated buffer; the total moveData count per packet is
exactly their sum, and can therefore exceed one. -/
theorem c2_moveData_per_packet_amended (st : GAN.GANState) (data : List Nat) (now : Int) :
    GAN.countMove (GAN.handleDataReceived st data now).2 =
      (GAN.rawMoveOf st data now).toList.length +
        GAN.bufMoveCount (st.dataBuffer ++ data) ∧
    (GAN.rawMoveOf st data now).toList.length ≤ 1 := by
  refine ⟨GAN.countMove_handle st data now, ?_⟩
  cases GAN.rawMoveOf st data now <;> simp

/-- Counterexample to C3 as stated: a rate-limited Rejected call still
overwrites lastDataTime (from 1000 to the arrival time 1100). -/
theorem c3_counterexample :
    (GAN.couldBeMove ⟨some 1000, none, none, []⟩ [1, 2, 3] 1100).1 =
      GAN.ClassifyOutcome.rejectedFrequent ∧
    (GAN.couldBeMove ⟨some 1000, none, none, []⟩ [1, 2, 3] 1100).2.lastDataTime = some 1100 ∧
    some (1100 : Int) ≠ some (1000 : Int) := by
  refine ⟨by decide, by decide, by decide⟩

/-- Claim C3 (amended): every couldBeMove call (accepted or not, rejected or
not) ends with lastDataTime = arrival time; lastDataBytes is updated only on
the accepted outcome and is otherwise unchanged; the classifier touches no
other state. -/
theorem c3_classifier_state_amended (st : GAN.GANState) (data : List Nat) (now : Int)
    (outcome : GAN.ClassifyOutcome) (st2 : GAN.GANState)
    (h : GAN.couldBeMove st data now = (outcome, st2)) :
    st2.lastDataTime = some now ∧
    st2.lastMovePacket = st.lastMovePacket ∧
    st2.dataBuffer = st.dataBuffer ∧
    st2.lastDataBytes =
      (if outcome = GAN.ClassifyOutcome.accepted then some data else st.lastDataBytes) := by
  unfold GAN.couldBeMove at h
  dsimp only at h
  split_ifs at h <;> (injection h with ho hs; subst ho; subst hs; simp)

/-- Witness for the amended C3: the initial state accepts the packet 01 02 03
at time 50 and stores both fields. -/
theorem c3_witness :
    (GAN.GANState.mk (some 50) (some [1, 2, 3]) none []).lastDataTime = some 50 ∧
    (GAN.GANState.mk (some 50) (some [1, 2, 3]) none []).lastMovePacket =
      GAN.initialGANState.lastMovePacket ∧
    (GAN.GANState.mk (some 50) (some [1, 2, 3]) none []).dataBuffer =
      GAN.initialGANState.dataBuffer ∧
    (GAN.GANState.mk (some 50) (some [1, 2, 3]) none []).lastDataBytes =
      (if GAN.ClassifyOutcome.accepted = GAN.ClassifyOutcome.accepted then some [1, 2, 3]
       else GAN.initialGANState.lastDataBytes) :=
  c3_classifier_state_amended GAN.initialGANState [1, 2, 3] 50 GAN.ClassifyOutcome.accepted
    (GAN.GANState.mk (some 50) (some [1, 2, 3]) none []) (by decide)

/-! ## GoCubeBluetooth, first revision (gocube-bluetooth.js lines 5-527)

The handler state carries the mutable fields the data path touches; byte
lists model Uint8Array packets (entries 0..255).  hasAccelListener models
whether an accelerometerData listener is registered (the
eventListeners.has check). -/

namespace GoCubeV1

structure PerfStats where
  packetsPerSecond : Nat
  averagePacketSize : Nat
  lastStatsUpdate : Int
deriving DecidableEq

structure GCState where
  lastProcessTime : Int
  packetCount : Nat
  droppedPackets : Nat
  performanceStats : PerfStats
  accelerometerEnabled : Bool
  moveDetectionOnly : Bool
  hasAccelListener : Bool
deriving DecidableEq

inductive GCEvent
  | moveData (move : List Char) (ts : Int)
  | accelerometerData (x y z : Int) (ts : Int)
  | batteryLevel (level : Nat)
  | cubeState (ts : Int)
deriving DecidableEq

inductive PacketType
  | move
  | accelerometer
  | battery
  | status
  | unknown
deriving DecidableEq

/-- GoCubeBluetooth.identifyPacketType (first revision): dispatch on the
first byte, 0x01 move, 0x02 accelerometer, 0x03 battery, 0x04 status. -/
def identifyPacketType (data : List Nat) : PacketType :=
  match data with
  | [] => .unknown
  | b :: _ =>
    if b = 1 then .move
    else if b = 2 then .accelerometer
    else if b = 3 then .battery
    else if b = 4 then .status
    else .unknown

/-- The 18-entry move table shared with the GAN module (byte 1..18); outside
the table the lookup is undefined (null in JS). -/
def moveMap18 (b : Nat) : Option (List Char) :=
  if 1 ≤ b && b ≤ 18 then some (GAN.ganMoveLabel b) else none

/-- GoCubeBluetooth.parseMoveData (first revision): [0x01, face, direction],
null under 3 bytes or for a byte outside the table. -/
def parseMoveData (data : List Nat) (now : Int) : Option GCEvent :=
  if data.length < 3 then none
  else (moveMap18 (data.getD 1 0)).map (fun mv => .moveData mv now)

/-- GoCubeBluetooth.parseAccelerometerData: 16-bit big-endian words offset by
32768; under 7 bytes null.  byteHigh shifted left 8 and or-ed with byteLow
equals 256 * byteHigh + byteLow for bytes below 256. -/
def parseAccelerometerData (data : List Nat) (now : Int) : Option GCEvent :=
  if data.length < 7 then none
  else some (.accelerometerData
    ((256 * data.getD 1 0 + data.getD 2 0 : Int) - 32768)
    ((256 * data.getD 3 0 + data.getD 4 0 : Int) - 32768)
    ((256 * data.getD 5 0 + data.getD 6 0 : Int) - 32768) now)

/-- GoCubeBluetooth.updatePerformanceStats: once a second, publish the packet
counters into performanceStats and reset them. -/
def updatePerformanceStats (st : GCState) (packetSize : Nat) (now : Int) : GCState :=
  if 1000 < now - st.performanceStats.lastStatsUpdate then
    { st with
      performanceStats := ⟨st.packetCount, packetSize, now⟩,
      packetCount := 0,
      droppedPackets := 0 }
  else st

/-- GoCubeBluetooth.handleDataReceived (first revision): packets arriving
less than 10 ms after the previously processed one only increment
droppedPackets and return; otherwise stamp lastProcessTime, count the packet,
update the stats and dispatch on the packet type. -/
def handleDataReceived (st : GCState) (data : List Nat) (now : Int) :
    GCState × List GCEvent :=
  if now - st.lastProcessTime < 10 then
    ({ st with droppedPackets := st.droppedPackets + 1 }, [])
  else
    let st1 := { st with lastProcessTime := now, packetCount := st.packetCount + 1 }
    let st2 := updatePerformanceStats st1 data.length now
    match identifyPacketType data with
    | .move => (st2, (parseMoveData data now).toList)
    | .accelerometer =>
      if st2.accelerometerEnabled && !st2.moveDetectionOnly then
        if st2.hasAccelListener then (st2, (parseAccelerometerData data now).toList)
        else (st2, [])
      else (st2, [])
    | .battery => (st2, if 2 ≤ data.length then [.batteryLevel (data.getD 1 0)] else [])
    | .status => (st2, [.cubeState now])
    | .unknown => (st2, [])

end GoCubeV1

/-- Claim C10: a notification arriving less than 10 ms after the previously
processed one makes the handler return immediately: no event of any kind is
emitted and the whole handler state is unchanged except droppedPackets, which
is incremented — in particular lastProcessTime is not advanced and the packet
is not buffered anywhere, so a genuine move packet in that window is silently
and permanently dropped. -/
theorem c10_throttle_drops_packet (st : GoCubeV1.GCState) (data : List Nat) (now : Int)
    (h : now - st.lastProcessTime < 10) :
    GoCubeV1.handleDataReceived st data now =
      ({ st with droppedPackets := st.droppedPackets + 1 }, []) := by
  unfold GoCubeV1.handleDataReceived
  rw [if_pos h]

/-- Witness for C10: a genuine move packet (0x01 0x07 0x00, an R move)
arriving 5 ms after the previously processed packet is dropped with only the
dropped counter moving. -/
theorem c10_witness :
    GoCubeV1.handleDataReceived ⟨995, 3, 0, ⟨0, 0, 0⟩, true, false, true⟩ [1, 7, 0] 1000 =
      (⟨995, 3, 1, ⟨0, 0, 0⟩, true, false, true⟩, []) :=
  c10_throttle_drops_packet ⟨995, 3, 0, ⟨0, 0, 0⟩, true, false, true⟩ [1, 7, 0] 1000 (by decide)

/-! ## GoCubeBluetooth, second revision: detectMoveFromAcceleration
(gocube-bluetooth.js lines 957-1078)

Acceleration components are g-unit values, modelled as exact rationals; the
magnitude comparisons of the source (Math.sqrt of sums of squares) are real
square roots, and the guard on the magnitude change is embedded through an
exact rational decision procedure proved equivalent to the square-root
comparison below. -/

namespace GoCubeV2

structure AccelSample where
  x : Rat
  y : Rat
  z : Rat
  timestamp : Int
deriving DecidableEq

/-- One accelerationHistory entry.  The source also stores the magnitude and
change values; they are write-only (only the timestamp is ever read, by the
2-second filter) and, being square roots, are not representable as exact
rationals, so the embedding keeps the components and the timestamp. -/
structure HistEntry where
  timestamp : Int
  x : Rat
  y : Rat
  z : Rat
deriving DecidableEq

structure DetectState where
  lastAcceleration : Option AccelSample
  accelerationHistory : List HistEntry
  lastMoveDetection : Option Int
deriving DecidableEq

def initialDetectState : DetectState := ⟨none, [], none⟩

def normSq (s : AccelSample) : Rat := s.x * s.x + s.y * s.y + s.z * s.z

/-- The source magnitude-change guard, in its own terms: the absolute
difference of the two real magnitudes exceeds c. -/
def MagChangeGt (a b : AccelSample) (c : Rat) : Prop :=
  ((c : Real) < |Real.sqrt (normSq a) - Real.sqrt (normSq b)|)

/-- Exact rational decision procedure for MagChangeGt, used by the step
function: with A, B the squared magnitudes and c ≥ 0, the condition
|sqrt A − sqrt B| > c is equivalent to A + B − c² > 0 and
(A + B − c²)² > 4 A B. -/
def magChangeGtB (a b : AccelSample) (c : Rat) : Bool :=
  decide (0 < normSq a + normSq b - c * c ∧
    4 * normSq a * normSq b < (normSq a + normSq b - c * c) * (normSq a + normSq b - c * c))

lemma normSq_nonneg (a : AccelSample) : 0 ≤ normSq a := by
  unfold normSq
  nlinarith [mul_self_nonneg a.x, mul_self_nonneg a.y, mul_self_nonneg a.z]

lemma magChangeGtB_iff (a b : AccelSample) (c : Rat) (hc : 0 ≤ c) :
    magChangeGtB a b c = true ↔ MagChangeGt a b c := by
  have hA0 : (0 : Real) ≤ ((normSq a : Rat) : Real) := by
    exact_mod_cast normSq_nonneg a
  have hB0 : (0 : Real) ≤ ((normSq b : Rat) : Real) := by
    exact_mod_cast normSq_nonneg b
  have hcR : (0 : Real) ≤ (c : Real) := by exact_mod_cast hc
  set A : Real := ((normSq a : Rat) : Real) with hAdef
  set B : Real := ((normSq b : Rat) : Real) with hBdef
  set s : Real := Real.sqrt A with hsdef
  set t : Real := Real.sqrt B with htdef
  have hs0 : 0 ≤ s := Real.sqrt_nonneg A
  have ht0 : 0 ≤ t := Real.sqrt_nonneg B
  have hs2 : s ^ 2 = A := Real.sq_sqrt hA0
  have ht2 : t ^ 2 = B := Real.sq_sqrt hB0
  have hst0 : 0 ≤ 2 * s * t := by positivity
  have hstsq : (2 * s * t) ^ 2 = 4 * A * B := by
    have hh : (2 * s * t) ^ 2 = 4 * s ^ 2 * t ^ 2 := by ring
    rw [hh, hs2, ht2]
  have habs : |s - t| ^ 2 = A + B - 2 * s * t := by
    rw [sq_abs]
    have hh : (s - t) ^ 2 = s ^ 2 + t ^ 2 - 2 * s * t := by ring
    rw [hh, hs2, ht2]
  unfold magChangeGtB MagChangeGt
  rw [decide_eq_true_eq]
  constructor
  · rintro ⟨h1, h2⟩
    have h1R : (0 : Real) < A + B - (c : Real) * (c : Real) := by
      rw [hAdef, hBdef]
      exact_mod_cast h1
    have h2R : 4 * A * B < (A + B - (c : Real) * (c : Real)) *
        (A + B - (c : Real) * (c : Real)) := by
      rw [hAdef, hBdef]
      exact_mod_cast h2
    have hDsq : (2 * s * t) ^ 2 < (A + B - (c : Real) * (c : Real)) ^ 2 := by
      rw [hstsq, sq]
      exact h2R
    have hD : 2 * s * t < A + B - (c : Real) * (c : Real) :=
      lt_of_pow_lt_pow_left₀ 2 (le_of_lt h1R) hDsq
    have hcsq : (c : Real) ^ 2 < |s - t| ^ 2 := by
      rw [habs, sq]
      linarith
    exact lt_of_pow_lt_pow_left₀ 2 (abs_nonneg _) hcsq
  · intro h
    have hcsq : (c : Real) ^ 2 < |s - t| ^ 2 :=
      pow_lt_pow_left₀ h hcR two_ne_zero
    have hD : 2 * s * t < A + B - (c : Real) * (c : Real) := by
      rw [habs] at hcsq
      nlinarith [hcsq]
    have h1R : (0 : Real) < A + B - (c : Real) * (c : Real) :=
      lt_of_le_of_lt hst0 hD
    have h2R : 4 * A * B < (A + B - (c : Real) * (c : Real)) *
        (A + B - (c : Real) * (c : Real)) := by
      have hp : (2 * s * t) ^ 2 < (A + B - (c : Real) * (c : Real)) ^ 2 :=
        pow_lt_pow_left₀ hD hst0 two_ne_zero
      rw [hstsq] at hp
      nlinarith [hp]
    constructor
    · have := h1R
      rw [hAdef, hBdef] at this
      exact_mod_cast this
    · have := h2R
      rw [hAdef, hBdef] at this
      exact_mod_cast this

/-- The duplicate-detection cooldown guard: no prior detection (or a falsy
stored 0) passes; otherwise more than 800 ms must have elapsed. -/
def cooldownOk (lmd : Option Int) (ts : Int) : Bool :=
  match lmd with
  | none => true
  | some t => (t == 0) || decide (800 < ts - t)

/-- Its propositional reading. -/
def CooldownOk (lmd : Option Int) (ts : Int) : Prop :=
  match lmd with
  | none => True
  | some t => t = 0 ∨ 800 < ts - t

lemma cooldownOk_iff (lmd : Option Int) (ts : Int) :
    cooldownOk lmd ts = true ↔ CooldownOk lmd ts := by
  cases lmd <;> simp [cooldownOk, CooldownOk]

/-- The move object built by GoCubeBluetooth.analyzeMovePattern (the nested
analysis payload is flattened to the fields the claims mention). -/
structure MoveEventV2 where
  move : List Char
  confidence : Rat
  timestamp : Int
  primaryAxis : Char
  maxDelta : Rat
deriving DecidableEq

def axisVal (s : AccelSample) (a : Char) : Rat :=
  if a = 'x' then s.x else if a = 'y' then s.y else s.z

/-- GoCubeBluetooth.analyzeMovePattern: dominant axis by absolute delta (ties
keep the earlier axis), sign of the dominant component change, axis-to-face
mapping guarded by strict dominance, generic label Move when the dominant
delta is below 1.5, confidence min (maxDelta / 5) 1.  It always returns an
object — there is no minimum-confidence discard. -/
def analyzeMovePattern (currentAccel lastAccel : AccelSample) : MoveEventV2 :=
  let deltaX := |currentAccel.x - lastAccel.x|
  let deltaY := |currentAccel.y - lastAccel.y|
  let deltaZ := |currentAccel.z - lastAccel.z|
  let pa1 : Char × Rat := if deltaX < deltaY then ('y', deltaY) else ('x', deltaX)
  let pa2 : Char × Rat := if pa1.2 < deltaZ then ('z', deltaZ) else pa1
  let primaryAxis := pa2.1
  let maxDelta := pa2.2
  let direction : Char :=
    if axisVal lastAccel primaryAxis < axisVal currentAccel primaryAxis then '+' else '-'
  let move : List Char :=
    if primaryAxis = 'x' then
      if deltaY < deltaX ∧ deltaZ < deltaX then
        (if direction = '+' then ['R'] else ['R', primeChar])
      else ("Move").data
    else if primaryAxis = 'y' then
      if deltaX < deltaY ∧ deltaZ < deltaY then
        (if direction = '+' then ['U'] else ['U', primeChar])
      else ("Move").data
    else
      if deltaX < deltaZ ∧ deltaY < deltaZ then
        (if direction = '+' then ['F'] else ['F', primeChar])
      else ("Move").data
  let move2 := if maxDelta < 3 / 2 then ("Move").data else move
  ⟨move2, min (maxDelta / 5) 1, currentAccel.timestamp, primaryAxis, maxDelta⟩

/-- GoCubeBluetooth.detectMoveFromAcceleration: the first sample only becomes
the baseline (and resets the history); afterwards the history is pushed and
pruned to 2 seconds, and a move event is emitted exactly when the magnitude
change exceeds 2, the sample gap lies strictly between 50 and 500 ms, and the
800 ms cooldown has passed; analyzeMovePattern always yields an object, so
the emission is never filtered by confidence. -/
def detectMoveFromAcceleration (st : DetectState) (sensorData : AccelSample) :
    DetectState × Option MoveEventV2 :=
  match st.lastAcceleration with
  | none => ({ st with lastAcceleration := some sensorData, accelerationHistory := [] }, none)
  | some lastAcceleration =>
    let timeGap := sensorData.timestamp - lastAcceleration.timestamp
    let hist1 := st.accelerationHistory ++
      [⟨sensorData.timestamp, sensorData.x, sensorData.y, sensorData.z⟩]
    let cutoffTime := sensorData.timestamp - 2000
    let hist2 := hist1.filter (fun h => decide (cutoffTime < h.timestamp))
    if magChangeGtB sensorData lastAcceleration 2 && decide (50 < timeGap) &&
        decide (timeGap < 500) then
      if cooldownOk st.lastMoveDetection sensorData.timestamp then
        ({ st with
            accelerationHistory := hist2,
            lastAcceleration := some sensorData,
            lastMoveDetection := some sensorData.timestamp },
          some (analyzeMovePattern sensorData lastAcceleration))
      else
        ({ st with accelerationHistory := hist2, lastAcceleration := some sensorData }, none)
    else
      ({ st with accelerationHistory := hist2, lastAcceleration := some sensorData }, none)

end GoCubeV2

/-- Claim C9 (amended): given a prior baseline sample, a motion-inferred move
event is emitted if and ONLY if the real magnitude change exceeds the
threshold 2, the inter-sample gap lies strictly between 50 ms and 500 ms, and
the cooldown (more than 800 ms since the last confirmed move, or none yet)
has passed — the only-when half of the claim holds, but conversely every
candidate passing these gates is emitted whatever its computed confidence:
there is no minimum-confidence discard (low-delta candidates are merely
relabeled Move). -/
theorem c9_motion_gating_amended (st : GoCubeV2.DetectState) (s last : GoCubeV2.AccelSample)
    (hlast : st.lastAcceleration = some last) :
    ((GoCubeV2.detectMoveFromAcceleration st s).2.isSome = true ↔
      (GoCubeV2.MagChangeGt s last 2 ∧ 50 < s.timestamp - last.timestamp ∧
        s.timestamp - last.timestamp < 500 ∧
        GoCubeV2.CooldownOk st.lastMoveDetection s.timestamp)) := by
  unfold GoCubeV2.detectMoveFromAcceleration
  rw [hlast]
  dsimp only
  by_cases hm : GoCubeV2.magChangeGtB s last 2 = true
  · by_cases h50 : 50 < s.timestamp - last.timestamp
    · by_cases h500 : s.timestamp - last.timestamp < 500
      · rw [if_pos (by simp [hm, h50, h500])]
        by_cases hcd : GoCubeV2.cooldownOk st.lastMoveDetection s.timestamp = true
        · rw [if_pos hcd]
          simp only [Option.isSome_some, true_iff]
          exact ⟨(GoCubeV2.magChangeGtB_iff s last 2 (by norm_num)).mp hm, h50, h500,
            (GoCubeV2.cooldownOk_iff _ _).mp hcd⟩
        · rw [if_neg hcd]
          simp only [Option.isSome_none, Bool.false_eq_true, false_iff]
          rintro ⟨-, -, -, hp⟩
          exact hcd ((GoCubeV2.cooldownOk_iff _ _).mpr hp)
      · rw [if_neg (by simp [h500])]
        simp only [Option.isSome_none, Bool.false_eq_true, false_iff]
        rintro ⟨-, -, hp, -⟩
        exact h500 hp
    · rw [if_neg (by simp [h50])]
      simp only [Option.isSome_none, Bool.false_eq_true, false_iff]
      rintro ⟨-, hp, -, -⟩
      exact h50 hp
  · rw [if_neg (by simp [hm])]
    simp only [Option.isSome_none, Bool.false_eq_true, false_iff]
    rintro ⟨hp, -, -, -⟩
    exact hm ((GoCubeV2.magChangeGtB_iff s last 2 (by norm_num)).mpr hp)

/-- Witness for the amended C9: after a resting baseline at t = 1000, the
sample (2, 2, 2) g at t = 1100 passes every gate and emits an event. -/
theorem c9_witness :
    ((GoCubeV2.detectMoveFromAcceleration
        (GoCubeV2.DetectState.mk (some ⟨0, 0, 0, 1000⟩) [] none) ⟨2, 2, 2, 1100⟩).2.isSome = true ↔
      (GoCubeV2.MagChangeGt ⟨2, 2, 2, 1100⟩ ⟨0, 0, 0, 1000⟩ 2 ∧
        50 < (1100 : Int) - 1000 ∧ (1100 : Int) - 1000 < 500 ∧
        GoCubeV2.CooldownOk none 1100)) :=
  c9_motion_gating_amended (GoCubeV2.DetectState.mk (some ⟨0, 0, 0, 1000⟩) [] none)
    ⟨2, 2, 2, 1100⟩ ⟨0, 0, 0, 1000⟩ rfl

/-- Counterexample to C9 as stated: the same gate-passing candidate carries
computed confidence 2/5 — below any plausible minimum such as 1/2 — and is
still emitted (with the generic label Move), because analyzeMovePattern never
returns null and no confidence filter exists. -/
theorem c9_counterexample :
    ((GoCubeV2.detectMoveFromAcceleration
        (GoCubeV2.DetectState.mk (some ⟨0, 0, 0, 1000⟩) [] none) ⟨2, 2, 2, 1100⟩).2.map
      (fun e => (e.move, e.confidence))) = some (("Move").data, 2 / 5) ∧
    (2 / 5 : Rat) < 1 / 2 := by
  constructor
  · rw [GoCubeV2.detectMoveFromAcceleration]
    dsimp only
    rw [if_pos]
    · rw [if_pos (show GoCubeV2.cooldownOk none 1100 = true from rfl)]
      rw [GoCubeV2.analyzeMovePattern]
      norm_num [GoCubeV2.axisVal]
    · rw [GoCubeV2.magChangeGtB]
      norm_num [GoCubeV2.normSq]
  · norm_num
